import Mathlib

/-!
Shallow embedding of the notebook `Interfaces.ipynb` from the repository
`complexes_interface`, together with proofs about the notebook's own
reformatting and printing logic.

The external toolkit (PyMOL, `InterfaceResidues.py`) and the network are
opaque collaborators: their outputs (binding lists of triples, fasta
strings) are inputs to the embedded functions, and the calls made into
them are recorded as explicit traces.

Machine-level conventions of the embedding:
- Python `int` is `Int`, Python `float` is `Rat` (no claim here depends on
  binary rounding of IEEE floats; the same formatting/parsing functions are
  used on both the implementation side and the specification side).
- Python exceptions are explicit `PyErr` values.
- A Python `dict` with `int` keys is an association list in insertion
  order with unique keys; assignment to an existing key updates it in
  place, assignment to a fresh key appends it (CPython 3.7+ semantics).
-/

namespace Interfaces

/-- Python exceptions that the notebook's own code can raise. -/
inductive PyErr where
  | valueError
  | indexError
  | unboundLocalError
deriving DecidableEq

/-- Decimal value of a list of digit characters (most significant first),
as produced by Python `int` on a digit string. -/
def digitsVal (cs : List Char) : Nat :=
  cs.foldl (fun acc c => acc * 10 + (c.toNat - 48)) 0

/-- A nonempty all-digit character list parsed to a `Nat`; `none` otherwise. -/
def parseDigits (cs : List Char) : Option Nat :=
  if cs ≠ [] ∧ cs.all Char.isDigit then some (digitsVal cs) else none

/-- Strip leading and trailing whitespace, as Python `int`/`float` do on
their string argument. -/
def pyStrip (cs : List Char) : List Char :=
  ((cs.dropWhile Char.isWhitespace).reverse.dropWhile Char.isWhitespace).reverse

/-- Python `int(s)` on a decimal string after whitespace stripping:
optional sign, then a nonempty run of digits; anything else raises
(`none` here). -/
def pyIntCore (cs : List Char) : Option Int :=
  match cs with
  | '-' :: rest => (parseDigits rest).map (fun n => -(n : Int))
  | '+' :: rest => (parseDigits rest).map (fun n => (n : Int))
  | _ => (parseDigits cs).map (fun n => (n : Int))

/-- Python `int(s)` on a decimal string. -/
def pyInt (s : String) : Option Int :=
  pyIntCore (pyStrip s.data)

/-- Core of Python `float(s)` after whitespace and sign removal: digits
with an optional decimal point (`"8"`, `"8.77"`, `"8."`, `".77"`), at
least one digit in total; the value is the exact rational
`intpart + fracpart / 10^len` built with `mkRat`.  Exponent and inf/nan
forms never occur in this notebook's data and are not modelled. -/
def pyFloatCore (cs : List Char) : Option Rat :=
  match cs.span (fun c => c ≠ '.') with
  | (intPart, []) => (parseDigits intPart).map (fun n => mkRat n 1)
  | (intPart, _ :: fracPart) =>
    if intPart.all Char.isDigit ∧ fracPart.all Char.isDigit ∧
        (intPart ≠ [] ∨ fracPart ≠ []) ∧ fracPart.all (fun c => c ≠ '.') then
      some (mkRat (digitsVal intPart * 10 ^ fracPart.length + digitsVal fracPart)
        (10 ^ fracPart.length))
    else none

/-- Python `float(s)` on a decimal literal string: optional surrounding
whitespace, optional sign, then `pyFloatCore`. -/
def pyFloat (s : String) : Option Rat :=
  match pyStrip s.data with
  | '-' :: rest => (pyFloatCore rest).map (fun q => -q)
  | '+' :: rest => pyFloatCore rest
  | cs => pyFloatCore cs

/-- Python f-string formatting `f"{x:5.2f}"`: the value rounded to the
nearest hundredth (`⌊q*100 + 1/2⌋`, computed on the reduced fraction as
`(200*num + den).fdiv (2*den)`; Python resolves exact ties through the
binary float representation, which no datum of this notebook hits),
rendered with exactly two fraction digits and left-padded with spaces to
a minimum width of 5. -/
def format52 (q : Rat) : String :=
  let n : Int := (200 * q.num + (q.den : Int)).fdiv (2 * (q.den : Int))
  let sign := if n < 0 then "-" else ""
  let m := n.natAbs
  let fracStr := (if m % 100 < 10 then "0" else "") ++ toString (m % 100)
  let s := sign ++ toString (m / 100) ++ "." ++ fracStr
  String.mk (List.replicate (5 - s.length) ' ') ++ s

/-- Python left-aligned formatting `f"{x:<5}"` applied to a string:
pad on the right with spaces to a minimum width. -/
def pyLAlign (s : String) (w : Nat) : String :=
  s ++ String.mk (List.replicate (w - s.length) ' ')

/-- Worker for `pySplit`: split a character list on runs of whitespace,
carrying the (reversed) current word. -/
def splitWsAux : List Char → List Char → List (List Char)
  | [], acc => if acc = [] then [] else [acc.reverse]
  | c :: cs, acc =>
    if c.isWhitespace then
      if acc = [] then splitWsAux cs [] else acc.reverse :: splitWsAux cs []
    else splitWsAux cs (c :: acc)

/-- Python `s.split()` with no argument: split on runs of whitespace,
discarding empty pieces. -/
def pySplit (s : String) : List String :=
  (splitWsAux s.data []).map String.mk

/-- Python string subscript `s[i]` with an `int` index: a negative index
counts from the end; out of range raises IndexError (`none` here). -/
def pyStrGet (s : String) (i : Int) : Option Char :=
  if 0 ≤ i then s.data.get? i.toNat
  else if -(s.data.length : Int) ≤ i then s.data.get? ((s.data.length : Int) + i).toNat
  else none

/-- One value of the dictionaries the notebook builds: the one-letter
amino-acid label and the formatted distance (dASA) string. -/
abbrev DVal := Char × String

/-- A Python `dict` keyed by `int`, in insertion order with unique keys. -/
abbrev Dict := List (Int × DVal)

/-- Python `d[k] = v`: update the existing entry in place, or append a
fresh one. -/
def dictSet {β : Type} (d : List (Int × β)) (k : Int) (v : β) : List (Int × β) :=
  if d.any (fun p => p.1 = k) then d.map (fun p => if p.1 = k then (k, v) else p)
  else d ++ [(k, v)]

/-- The keys of a dict in insertion order (`dictionary.keys()`). -/
def dictKeys {β : Type} (d : List (Int × β)) : List Int :=
  d.map Prod.fst

/-- Python `d[k]` as an option: the (unique) entry for `k`. -/
def dictLookup {β : Type} (d : List (Int × β)) (k : Int) : Option β :=
  match d with
  | [] => none
  | (k2, v) :: rest => if k2 = k then some v else dictLookup rest k

/-- Dynamically-typed Python values as they appear in the binding lists:
strings, ints, floats, and arbitrarily nested lists and tuples. -/
inductive PyVal where
  | str (s : String)
  | intV (n : Int)
  | floatV (q : Rat)
  | list (xs : List PyVal)
  | tuple (xs : List PyVal)

mutual
/-- Python `==` on the embedded values: structural on strings and
containers (a list never equals a tuple), numeric across `int`/`float`. -/
def pyEq : PyVal → PyVal → Bool
  | PyVal.str a, PyVal.str b => a = b
  | PyVal.intV a, PyVal.intV b => a = b
  | PyVal.floatV a, PyVal.floatV b => a = b
  | PyVal.intV a, PyVal.floatV b => (a : Rat) = b
  | PyVal.floatV a, PyVal.intV b => a = (b : Rat)
  | PyVal.list as, PyVal.list bs => pyEqList as bs
  | PyVal.tuple as, PyVal.tuple bs => pyEqList as bs
  | _, _ => false

/-- Elementwise Python `==` on lists of values. -/
def pyEqList : List PyVal → List PyVal → Bool
  | [], [] => true
  | a :: as2, b :: bs2 => pyEq a b && pyEqList as2 bs2
  | _, _ => false
end

/-- `Count_Element(arr, element)` from the notebook: walk the (possibly
nested) lists and tuples in `arr` and count the non-container items equal
to `element`. -/
def Count_Element : List PyVal → PyVal → Nat
  | [], _ => 0
  | item :: rest, element =>
    (match item with
     | PyVal.list xs => Count_Element xs element
     | PyVal.tuple xs => Count_Element xs element
     | _ => if pyEq item element then 1 else 0) + Count_Element rest element

/-- Specification-side flattening: the non-list, non-tuple items of a
nested structure, at any depth, in order. -/
def pyAtoms : List PyVal → List PyVal
  | [] => []
  | item :: rest =>
    (match item with
     | PyVal.list xs => pyAtoms xs
     | PyVal.tuple xs => pyAtoms xs
     | _ => [item]) ++ pyAtoms rest

/-- One element of a binding list: the `(chain-tag, residue-id, dASA)`
triple that `interfaceResidues` yields, all fields as strings. -/
abbrev Triple := String × String × String

/-- A binding-list triple as the dynamically typed tuple the notebook's
`Count_Element` walks over. -/
def encodeTriple (t : Triple) : PyVal :=
  PyVal.tuple [PyVal.str t.1, PyVal.str t.2.1, PyVal.str t.2.2]

/-- The local variables of the loop inside `Define_Interfaces`:
`index`, the last bound value of `dist` (`none` while still unbound),
and the two dictionaries being mutated. -/
structure DIState where
  index : Nat
  dist : Option Rat
  spike : Dict
  antibody : Dict

/-- The `try`/`except` at the top of the loop body of
`Define_Interfaces`: `try: res, dist = int(ele[1]), float(ele[2])` — if
either conversion fails the tuple assignment does not happen and the
`except` branch computes `res = int(re.sub("[^0-9]", "", ele[1]))`
(ValueError when no digit remains) while `dist` keeps its previous
binding. -/
def tryParse (st : DIState) (ele : Triple) : Except PyErr (Int × Option Rat) :=
  match pyInt ele.2.1, pyFloat ele.2.2 with
  | some r, some q => Except.ok (r, some q)
  | _, _ =>
    match parseDigits (ele.2.1.data.filter Char.isDigit) with
    | none => Except.error PyErr.valueError
    | some n => Except.ok ((n : Int), st.dist)

/-- One iteration of the loop in `Define_Interfaces`: after the
`try`/`except`, the `chA` branch reads `fasta.split()[1][index]` and the
other branch reads `fasta.split()[3][index - n_antibody]` (a possibly
negative Python index), and the f-string `f"{dist:5.2f}"` raises
UnboundLocalError when `dist` was never bound.  An exception leaves the
dictionaries as they were at its point (all writes happen after the
reads that can raise). -/
def diStep (fields : List String) (nA : Nat) (st : DIState) (ele : Triple) :
    Except PyErr DIState :=
  match tryParse st ele with
  | Except.error e => Except.error e
  | Except.ok (res, dist) =>
  if ele.1 = "chA" then
    match fields.get? 1 with
    | none => Except.error PyErr.indexError
    | some f1 =>
      match pyStrGet f1 (st.index : Int) with
      | none => Except.error PyErr.indexError
      | some label =>
        match dist with
        | none => Except.error PyErr.unboundLocalError
        | some q =>
          Except.ok ⟨st.index + 1, dist, st.spike,
            dictSet st.antibody res (label, format52 q)⟩
  else
    match fields.get? 3 with
    | none => Except.error PyErr.indexError
    | some f3 =>
      match pyStrGet f3 ((st.index : Int) - (nA : Int)) with
      | none => Except.error PyErr.indexError
      | some label =>
        match dist with
        | none => Except.error PyErr.unboundLocalError
        | some q =>
          Except.ok ⟨st.index + 1, dist,
            dictSet st.spike res (label, format52 q), st.antibody⟩

/-- The whole `for ele in binding` loop of `Define_Interfaces`: on an
exception the state reached so far is kept (the dictionaries are mutated
in place in Python) together with the exception. -/
def diRun (fields : List String) (nA : Nat) :
    List Triple → DIState → DIState × Option PyErr
  | [], st => (st, none)
  | ele :: rest, st =>
    match diStep fields nA st ele with
    | Except.error e => (st, some e)
    | Except.ok st2 => diRun fields nA rest st2

/-- What a call to `Define_Interfaces` leaves behind: the printed count
lines, the final contents of the two dictionaries passed in (mutated in
place), the exception if one escaped, and the Python return value
(`None`, i.e. nothing, when an exception escaped). -/
structure DIResult where
  printed : List String
  spike : Dict
  antibody : Dict
  error : Option PyErr
  retval : Option (Dict × Dict)

/-- Python `print(a, b)` with a string and an int: joined by one space. -/
def printPair (s : String) (n : Nat) : String := s ++ " " ++ toString n

/-- `Define_Interfaces(binding, fasta, interface_spike, interface_antibody)`
from the notebook: count the `'chA'`/`'chB'` tags, print the counts, then
walk the binding list filling the two dictionaries with
`residue-number -> [fasta letter, formatted dASA]` entries, and return
the two dictionaries. -/
def Define_Interfaces (binding : List Triple) (fasta : String)
    (interface_spike interface_antibody : Dict) : DIResult :=
  let n_antibody := Count_Element (binding.map encodeTriple) (PyVal.str "chA")
  let n_spike := Count_Element (binding.map encodeTriple) (PyVal.str "chB")
  let printed := [printPair "Number residues interface antibody: " n_antibody,
                  printPair "Number residues interface spike: " n_spike]
  let r :=
    diRun (pySplit fasta) n_antibody binding ⟨0, none, interface_spike, interface_antibody⟩
  { printed := printed
    spike := r.1.spike
    antibody := r.1.antibody
    error := r.2
    retval := match r.2 with
      | none => some (r.1.spike, r.1.antibody)
      | some _ => none }

/-- Python `range(a, b)` over ints: `a, a+1, ..., b-1`. -/
def pyRange (a b : Int) : List Int :=
  (List.range (b - a).toNat).map (fun (n : Nat) => a + (n : Int))

/-- Python `min` over a nonempty list of ints (`0` on the unreachable
empty case; `Print` only calls it after the empty-dict check). -/
def listMin : List Int → Int
  | [] => 0
  | x :: xs => xs.foldl min x

/-- Python `max` over a nonempty list of ints. -/
def listMax : List Int → Int
  | [] => 0
  | x :: xs => xs.foldl max x

/-- The character `Print` emits for position `i`: the stored one-letter
label when `i` is a key of the dictionary (`i in list(dictionary.keys())`
followed by `dictionary[i][0]`), a dot otherwise. -/
def labelAt (dictionary : Dict) (i : Int) : Char :=
  match dictLookup dictionary i with
  | some v => v.1
  | none => '.'

/-- The string the loop of `Print` builds: one character per
`i in range(value_min - 5, value_max + 5)`, the stored label when `i` is
a key and `'.'` otherwise. -/
def printString (dictionary : Dict) : String :=
  String.mk ((pyRange (listMin (dictKeys dictionary) - 5)
    (listMax (dictKeys dictionary) + 5)).map (labelAt dictionary))

/-- `Print(dictionary)` from the notebook: for a nonempty dictionary,
build and print one string running from five positions before the
smallest key to four positions after the largest; `min()` of an empty
dict raises ValueError. -/
def Print (dictionary : Dict) : Except PyErr String :=
  match dictionary with
  | [] => Except.error PyErr.valueError
  | _ => Except.ok (printString dictionary)

/-- The line `Print_Important_Residues` prints for a flagged entry:
`f"Reside: {key:<5}, Amino Acid: {values[0]}, Distance (dASA): {values[1]}"`. -/
def pirLine (key : Int) (values : DVal) : String :=
  "Reside: " ++ pyLAlign (toString key) 5 ++ ", Amino Acid: " ++
    String.mk [values.1] ++ ", Distance (dASA): " ++ values.2

/-- The loop of `Print_Important_Residues`: accumulate the printed lines
and the `important_residues` dict (whose values are the singleton lists
`[values]`); `float(values[1])` raises on an unparseable distance string,
keeping what was printed so far.  `Rat.blt 4 q` is the strict order test
`4 < q` on `Rat`, i.e. Python's `float(values[1]) > 4.0`. -/
def pirRun : List (Int × DVal) → List (Int × List DVal) → List String →
    List String × List (Int × List DVal) × Option PyErr
  | [], imp, out => (out, imp, none)
  | (key, values) :: rest, imp, out =>
    match pyFloat values.2 with
    | none => (out, imp, some PyErr.valueError)
    | some q =>
      if Rat.blt 4 q then
        pirRun rest (dictSet imp key [values]) (out ++ [pirLine key values])
      else pirRun rest imp out

/-- What a call to `Print_Important_Residues` leaves behind.  The
function body ends without a `return` statement (the
`return important_residues` line is commented out), so the Python return
value is always `None`: `retval := none` by construction. -/
structure PIRResult where
  printed : List String
  important_residues : List (Int × List DVal)
  error : Option PyErr
  retval : Option Dict

/-- `Print_Important_Residues(dictionary)` from the notebook: print (and
collect) the entries whose stored distance string exceeds 4.0, in
iteration order of the dictionary; return `None`. -/
def Print_Important_Residues (dictionary : Dict) : PIRResult :=
  let r := pirRun dictionary [] []
  { printed := r.1, important_residues := r.2.1, error := r.2.2, retval := none }

/-- The two structure identifier constants of the notebook. -/
def prot1 : String := "6M0J"

/-- The second structure identifier constant. -/
def prot2 : String := "7Z0X"

/-- One `urllib.request.urlretrieve(url, filename)` call. -/
structure UrlAction where
  url : String
  filename : String
deriving DecidableEq

/-- A Python return value of the notebook's helper routines: `None`, or
the pair (interface-residue list, fasta string) that
`Identify_Binding_Interfaces` returns. -/
inductive PyRet where
  | none
  | interfacePair (residues : List Triple) (fasta : String)
deriving DecidableEq

/-- The host part of an `https://` URL. -/
def urlHost (u : String) : String :=
  let cs := if u.data.take 8 = "https://".data then u.data.drop 8 else u.data
  String.mk (cs.takeWhile (fun c => c ≠ '/'))

/-- `Import_PDB()` from the notebook: its network/file effects in order,
and its return value (the function body has no `return`, so `None`). -/
def Import_PDB : List UrlAction × PyRet :=
  ([⟨"https://files.rcsb.org/download/6M0J.pdb", "6M0J.pdb"⟩,
    ⟨"https://files.rcsb.org/download/7Z0X.pdb", "7Z0X.pdb"⟩], PyRet.none)

/-- The PyMOL toolkit calls the notebook makes, with their string
arguments.  `interfaceResiduesCmd obj cA cB` records the call into the
external `interfaceResidues` helper (its `cutoff` and `selName` keyword
arguments are the fixed `0.75` and `"interface"`). -/
inductive TkCall where
  | finishLaunchingCmd
  | loadCmd (file obj : String)
  | showCmd (representation sel : String)
  | hideCmd (representation sel : String)
  | pngCmd (file : String)
  | alignCmd (mobile target : String)
  | getObjectListCmd
  | getChainsCmd (obj : String)
  | interfaceResiduesCmd (obj cA cB : String)
  | getFastastrCmd (sel : String)
deriving DecidableEq

/-- The arguments of a toolkit call that name a PyMOL object or
selection (as opposed to representation names, file names, or chain
selectors inside an object). -/
def objectNameArgs : TkCall → List String
  | TkCall.loadCmd _ obj => [obj]
  | TkCall.showCmd _ sel => [sel]
  | TkCall.hideCmd _ sel => [sel]
  | TkCall.alignCmd mobile target => [mobile, target]
  | TkCall.getChainsCmd obj => [obj]
  | TkCall.interfaceResiduesCmd obj _ _ => [obj]
  | TkCall.getFastastrCmd sel => [sel]
  | _ => []

/-- The names under which structures were loaded in a trace: the second
argument of each `pymol.cmd.load` call. -/
def loadedNames (trace : List TkCall) : List String :=
  trace.filterMap (fun c => match c with
    | TkCall.loadCmd _ obj => some obj
    | _ => Option.none)

/-- `Save_Protein(name)` from the notebook: toolkit calls and return value. -/
def Save_Protein (name : String) : List TkCall × PyRet :=
  ([TkCall.showCmd "cartoon" name, TkCall.pngCmd (name ++ ".png"),
    TkCall.hideCmd "everything" name], PyRet.none)

/-- `Load_Protein(name)` from the notebook. -/
def Load_Protein (name : String) : List TkCall × PyRet :=
  (TkCall.loadCmd (name ++ ".pdb") name :: (Save_Protein name).1, PyRet.none)

/-- `Load_Proteins()` from the notebook. -/
def Load_Proteins : List TkCall × PyRet :=
  ((Load_Protein prot1).1 ++ (Load_Protein prot2).1, PyRet.none)

/-- `Align_Structures()` from the notebook (its trailing bare `return`
returns `None`). -/
def Align_Structures : List TkCall × PyRet :=
  ([TkCall.showCmd "cartoon" prot1, TkCall.showCmd "cartoon" prot2,
    TkCall.alignCmd prot1 prot2, TkCall.pngCmd "aligned_6M0J.png"], PyRet.none)

/-- `Identify_Binding_Interfaces(obj, chain1, chain2)` from the notebook.
The external toolkit's outputs — the interface-residue list and the
fasta string of the `"interface"` selection — are inputs `tkResidues`
and `tkFasta` here; the function returns them as the tuple
`myInterfaceResidues, list_fasta`. -/
def Identify_Binding_Interfaces (tkResidues : List Triple) (tkFasta : String)
    (obj chain1 chain2 : String) : List TkCall × PyRet :=
  ([TkCall.interfaceResiduesCmd obj chain1 chain2, TkCall.getFastastrCmd "interface",
    TkCall.showCmd "sticks" "interface", TkCall.pngCmd (obj ++ "_interface.png")],
   PyRet.interfacePair tkResidues tkFasta)

/-- The cell that lists the loaded objects and their chains:
`get_object_list()` followed by `get_chains(obj)` for each object.  The
objects returned by the toolkit are exactly the names loaded so far. -/
def chainsCellTrace : List TkCall :=
  TkCall.getObjectListCmd :: (loadedNames Load_Proteins.1).map TkCall.getChainsCmd

/-- The full sequence of toolkit calls made by the notebook's cells, in
execution order.  The notebook's call sequence does not depend on the
toolkit's data outputs, so the interface-residue/fasta outputs are
irrelevant to the trace and instantiated with empty placeholders. -/
def notebookTrace : List TkCall :=
  TkCall.finishLaunchingCmd ::
  (Load_Proteins.1 ++ Align_Structures.1 ++ chainsCellTrace ++
   [TkCall.showCmd "cartoon" prot1, TkCall.hideCmd "everything" prot2] ++
   (Identify_Binding_Interfaces [] "" prot1 "c. A" "c. E").1 ++
   [TkCall.hideCmd "everything" prot1, TkCall.showCmd "cartoon" prot2] ++
   (Identify_Binding_Interfaces [] "" prot2 "c. H" "c. R").1 ++
   (Identify_Binding_Interfaces [] "" prot2 "c. L" "c. R").1)

/-- The hotspot lines flagged for the 6M0J antibody interface by the
notebook's comparison cell: it runs
`Define_Interfaces(binding1_res, binding1_fasta, {}, {})` and passes the
resulting antibody dictionary to `Print_Important_Residues`.  All the
7Z0X data of the session (`binding2`, `binding3`, and their fasta
strings) is in scope at that point and is taken as an argument here, so
that dependence on it can be stated; the notebook's flagging code never
reads it. -/
def hotspotLines6M0J (binding1 : List Triple) (fasta1 : String)
    (binding2 binding3 : List Triple) (fasta2 fasta3 : String) : List String :=
  (Print_Important_Residues (Define_Interfaces binding1 fasta1 [] []).antibody).printed

/-- Specification side of C1, following the claim's words: the `k`-th
triple of `ts` (counting from `i0` for the following ones) contributes
the entry `int(residue-id) -> [field[k], dASA formatted as "%5.2f"]`. -/
def specEntries (field : String) : Nat → List Triple → List (Int × DVal)
  | _, [] => []
  | i, t :: ts =>
    ((pyInt t.2.1).getD 0,
      ((pyStrGet field (i : Int)).getD ' ', format52 ((pyFloat t.2.2).getD 0)))
      :: specEntries field (i + 1) ts

/-- Apply a list of key/value assignments to a dict, in order. -/
def specApply (d : Dict) (es : List (Int × DVal)) : Dict :=
  es.foldl (fun d2 e => dictSet d2 e.1 e.2) d

/-- The key a triple assigns in `Define_Interfaces` when no exception
escapes its iteration: `int(ele[1])`, or the digits of `ele[1]` when the
`try` fails (`none` when even that raises). -/
def keyOf (t : Triple) : Option Int :=
  match pyInt t.2.1, pyFloat t.2.2 with
  | some r, some _ => some r
  | _, _ => (parseDigits (t.2.1.data.filter Char.isDigit)).map (fun n => (n : Int))

theorem count_atoms : ∀ (arr : List PyVal) (el : PyVal),
    Count_Element arr el = ((pyAtoms arr).filter (fun a => pyEq a el)).length
  | [], _ => by simp [Count_Element, pyAtoms]
  | PyVal.list xs :: rest, el => by
    simp [Count_Element, pyAtoms, count_atoms xs el, count_atoms rest el, List.filter_append]
  | PyVal.tuple xs :: rest, el => by
    simp [Count_Element, pyAtoms, count_atoms xs el, count_atoms rest el, List.filter_append]
  | PyVal.str s :: rest, el => by
    simp only [Count_Element, pyAtoms, count_atoms rest el, List.filter_append, List.filter,
      List.length_append, List.singleton_append]
    by_cases h : pyEq (PyVal.str s) el <;> simp [h, Nat.add_comm]
  | PyVal.intV n :: rest, el => by
    simp only [Count_Element, pyAtoms, count_atoms rest el, List.filter_append, List.filter,
      List.length_append, List.singleton_append]
    by_cases h : pyEq (PyVal.intV n) el <;> simp [h, Nat.add_comm]
  | PyVal.floatV q :: rest, el => by
    simp only [Count_Element, pyAtoms, count_atoms rest el, List.filter_append, List.filter,
      List.length_append, List.singleton_append]
    by_cases h : pyEq (PyVal.floatV q) el <;> simp [h, Nat.add_comm]

/-- C7: for every finitely nested structure of lists and tuples and every
element, `Count_Element(arr, element)` returns the total number of
non-list, non-tuple items equal (in the Python sense) to `element`
occurring at any nesting depth in `arr`, and returns 0 for an empty
structure. -/
theorem Count_Element_spec (arr : List PyVal) (el : PyVal) :
    Count_Element arr el = ((pyAtoms arr).filter (fun a => pyEq a el)).length ∧
    Count_Element [] el = 0 :=
  ⟨count_atoms arr el, rfl⟩

/-- C8: `Import_PDB` retrieves exactly two files over the network — the
PDB entries 6M0J and 7Z0X, both from the host `files.rcsb.org` — saves
them locally as `6M0J.pdb` and `7Z0X.pdb`, fetches nothing else, and
returns `None`. -/
theorem Import_PDB_spec :
    Import_PDB.1.length = 2 ∧
    Import_PDB.1.map UrlAction.url =
      ["https://files.rcsb.org/download/6M0J.pdb",
       "https://files.rcsb.org/download/7Z0X.pdb"] ∧
    Import_PDB.1.map (fun a => urlHost a.url) = ["files.rcsb.org", "files.rcsb.org"] ∧
    Import_PDB.1.map UrlAction.filename = ["6M0J.pdb", "7Z0X.pdb"] ∧
    Import_PDB.2 = PyRet.none := by
  refine ⟨rfl, rfl, ?_, rfl, rfl⟩
  decide

/-- C9 counterexample: the helper routine `Identify_Binding_Interfaces`
does not return `None`; at a concrete input its return value is the
tuple of the toolkit's interface-residue list and fasta string. -/
theorem Identify_returns_value_counterexample :
    (Identify_Binding_Interfaces [("chA", "19", "8.77")] ">6M0J_A" prot1 "c. A" "c. E").2 ≠
      PyRet.none := by
  decide

/-- C9 amended: `Import_PDB`, `Save_Protein`, `Load_Protein`,
`Load_Proteins` and `Align_Structures` return `None` and act only through
printed/saved output, but `Identify_Binding_Interfaces` returns the
toolkit's interface-residue list and the fasta string as a tuple for
further processing. -/
theorem helper_return_values (name obj chain1 chain2 : String)
    (tkResidues : List Triple) (tkFasta : String) :
    Import_PDB.2 = PyRet.none ∧
    (Save_Protein name).2 = PyRet.none ∧
    (Load_Protein name).2 = PyRet.none ∧
    Load_Proteins.2 = PyRet.none ∧
    Align_Structures.2 = PyRet.none ∧
    (Identify_Binding_Interfaces tkResidues tkFasta obj chain1 chain2).2 =
      PyRet.interfacePair tkResidues tkFasta :=
  ⟨rfl, rfl, rfl, rfl, rfl, rfl⟩

/-- C10: the two structure identifier constants are fixed at `'6M0J'` and
`'7Z0X'` (in the embedding they are constants, and no notebook cell
assigns to them), and in the notebook's full trace of toolkit calls,
every argument that names a loaded structure object is one of these two
identifiers (the only other object/selection name ever passed is the
`"interface"` selection, which is never loaded as a structure). -/
theorem prot_constants_spec :
    prot1 = "6M0J" ∧ prot2 = "7Z0X" ∧
    (notebookTrace.all (fun c => (objectNameArgs c).all (fun a =>
      !((loadedNames notebookTrace).contains a) || (a == prot1 || a == prot2)))) = true := by
  refine ⟨rfl, rfl, ?_⟩
  decide

/-- C2 counterexample: the notebook's hotspot flagging for the 6M0J
antibody interface is unchanged when residue 19's interface membership
in the 7Z0X complex changes (present in one 7Z0X dataset, absent in the
other), so whether a residue is flagged does not depend on a comparison
against the 7Z0X complex — it is computed from the 6M0J data alone. -/
theorem hotspot_no_diff_counterexample :
    hotspotLines6M0J [("chA", "19", "8.77")] "x S x V"
        [("chB", "19", "9.00")] [] "x S x V" "" =
      hotspotLines6M0J [("chA", "19", "8.77")] "x S x V" [] [] "" "" ∧
    hotspotLines6M0J [("chA", "19", "8.77")] "x S x V" [] [] "" "" =
      [pirLine 19 ('S', " 8.77")] ∧
    dictKeys (Define_Interfaces [("chB", "19", "9.00")] "x S x V" [] []).spike = [19] ∧
    dictKeys (Define_Interfaces ([] : List Triple) "" [] []).spike = [] := by
  refine ⟨rfl, ?_, ?_, rfl⟩ <;> decide

/-- C2 amended: whether a residue is flagged as a hotspot depends only on
the single complex's dictionary — `Print_Important_Residues` thresholds
the stored dASA string at 4.0 — and is independent of the other
complex's data; the code performs no cross-complex diff (the comparison
of the two footprints is left to the reader of the printed output). -/
theorem hotspot_single_complex (binding1 : List Triple) (fasta1 : String)
    (binding2 binding3 b2r b3r : List Triple) (fasta2 fasta3 f2r f3r : String) :
    hotspotLines6M0J binding1 fasta1 binding2 binding3 fasta2 fasta3 =
      hotspotLines6M0J binding1 fasta1 b2r b3r f2r f3r ∧
    hotspotLines6M0J binding1 fasta1 binding2 binding3 fasta2 fasta3 =
      (Print_Important_Residues (Define_Interfaces binding1 fasta1 [] []).antibody).printed :=
  ⟨rfl, rfl⟩

/-- C3 counterexample: `Define_Interfaces` does raise on some binding
lists of string triples — when the first triple's fields fail `int`
and `float` conversion, the fallback branch leaves `dist` unbound and
the f-string `f"{dist:5.2f}"` raises UnboundLocalError. -/
theorem Define_Interfaces_raises_counterexample :
    (Define_Interfaces [("chA", "x1x", "bad")] "a b c d" [] []).error =
      some PyErr.unboundLocalError := by
  decide

theorem pirRun_ok (d : List (Int × DVal)) :
    ∀ (imp : List (Int × List DVal)) (out : List String),
    (∀ e ∈ d, (pyFloat e.2.2).isSome) →
    (pirRun d imp out).1 =
      out ++ ((d.filter (fun e => Rat.blt 4 ((pyFloat e.2.2).getD 0))).map
        (fun e => pirLine e.1 e.2)) ∧
    (pirRun d imp out).2.2 = none := by
  induction d with
  | nil => intro imp out _; simp [pirRun]
  | cons e rest ih =>
    intro imp out hp
    obtain ⟨q, hq⟩ := Option.isSome_iff_exists.1 (hp e (List.mem_cons_self e rest))
    have hrest : ∀ e2 ∈ rest, (pyFloat e2.2.2).isSome :=
      fun e2 h2 => hp e2 (List.mem_cons_of_mem e h2)
    obtain ⟨k, v⟩ := e
    simp only [pirRun, hq, List.filter_cons]
    by_cases hb : Rat.blt 4 q
    · have := ih (dictSet imp k [v]) (out ++ [pirLine k v]) hrest
      simp only [hq] at hb ⊢
      simp [hb, hq, Option.getD, this.1, this.2, List.append_assoc]
    · have := ih imp out hrest
      simp only [hq] at hb ⊢
      simp [hb, hq, Option.getD, this.1, this.2]

/-- C4: for every dictionary mapping residue numbers to label/distance
pairs whose distance strings all parse, `Print_Important_Residues`
prints exactly those residues whose stored distance string parses to a
float strictly greater than 4.0, in the dictionary's insertion order,
raises nothing, and always returns `None` (despite its annotated return
type `Dict`). -/
theorem Print_Important_Residues_spec (d : Dict)
    (hp : ∀ e ∈ d, (pyFloat e.2.2).isSome) :
    (Print_Important_Residues d).error = none ∧
    (Print_Important_Residues d).printed =
      (d.filter (fun e => Rat.blt 4 ((pyFloat e.2.2).getD 0))).map
        (fun e => pirLine e.1 e.2) ∧
    (Print_Important_Residues d).retval = none := by
  have h := pirRun_ok d [] [] hp
  exact ⟨h.2, by simpa using h.1, rfl⟩

/-- C4 witness: the theorem applied to a concrete two-entry dictionary,
one entry above and one below the 4.0 threshold. -/
theorem Print_Important_Residues_spec_witness :
    (Print_Important_Residues [((19 : Int), ('S', " 8.77")), (20, ('T', " 3.99"))]).error =
      none ∧
    (Print_Important_Residues [((19 : Int), ('S', " 8.77")), (20, ('T', " 3.99"))]).printed =
      (([((19 : Int), ('S', " 8.77")), (20, ('T', " 3.99"))].filter
        (fun e => Rat.blt 4 ((pyFloat e.2.2).getD 0))).map (fun e => pirLine e.1 e.2)) ∧
    (Print_Important_Residues [((19 : Int), ('S', " 8.77")), (20, ('T', " 3.99"))]).retval =
      none :=
  Print_Important_Residues_spec [((19 : Int), ('S', " 8.77")), (20, ('T', " 3.99"))]
    (by decide)

theorem foldl_min_le (xs : List Int) : ∀ a : Int,
    xs.foldl min a ≤ a ∧ ∀ x ∈ xs, xs.foldl min a ≤ x := by
  induction xs with
  | nil => intro a; simp
  | cons y ys ih =>
    intro a
    have h := ih (min a y)
    refine ⟨le_trans h.1 (min_le_left a y), ?_⟩
    intro x hx
    rcases List.mem_cons.1 hx with rfl | hx2
    · exact le_trans h.1 (min_le_right a x)
    · exact h.2 x hx2

theorem foldl_max_ge (xs : List Int) : ∀ a : Int,
    a ≤ xs.foldl max a ∧ ∀ x ∈ xs, x ≤ xs.foldl max a := by
  induction xs with
  | nil => intro a; simp
  | cons y ys ih =>
    intro a
    have h := ih (max a y)
    refine ⟨le_trans (le_max_left a y) h.1, ?_⟩
    intro x hx
    rcases List.mem_cons.1 hx with rfl | hx2
    · exact le_trans (le_max_right a x) h.1
    · exact h.2 x hx2

theorem listMin_le {ks : List Int} {x : Int} (hx : x ∈ ks) : listMin ks ≤ x := by
  cases ks with
  | nil => cases hx
  | cons k rest =>
    rcases List.mem_cons.1 hx with rfl | hx2
    · exact (foldl_min_le rest x).1
    · exact (foldl_min_le rest k).2 x hx2

theorem le_listMax {ks : List Int} {x : Int} (hx : x ∈ ks) : x ≤ listMax ks := by
  cases ks with
  | nil => cases hx
  | cons k rest =>
    rcases List.mem_cons.1 hx with rfl | hx2
    · exact (foldl_max_ge rest x).1
    · exact (foldl_max_ge rest k).2 x hx2

theorem dictLookup_mem {β : Type} {d : List (Int × β)} {i : Int} {v : β}
    (h : dictLookup d i = some v) : i ∈ dictKeys d := by
  induction d with
  | nil => simp [dictLookup] at h
  | cons e rest ih =>
    by_cases he : e.1 = i
    · simp [dictKeys, he]
    · obtain ⟨k, w⟩ := e
      simp only [dictLookup, he, if_neg he] at h
      simp [dictKeys] at ih ⊢
      exact Or.inr (ih h)

theorem labelAt_dot_of_lt {d : Dict} {i : Int} (h : i < listMin (dictKeys d)) :
    labelAt d i = '.' := by
  unfold labelAt
  cases hl : dictLookup d i with
  | none => rfl
  | some v => exact absurd (listMin_le (dictLookup_mem hl)) (not_le.2 h)

theorem labelAt_dot_of_gt {d : Dict} {i : Int} (h : listMax (dictKeys d) < i) :
    labelAt d i = '.' := by
  unfold labelAt
  cases hl : dictLookup d i with
  | none => rfl
  | some v => exact absurd (le_listMax (dictLookup_mem hl)) (not_le.2 h)

theorem pyRange_length (a b : Int) : (pyRange a b).length = (b - a).toNat := by
  unfold pyRange
  rw [List.length_map, List.length_range]

theorem pyRange_get (a b : Int) (n : Nat) (h : n < (b - a).toNat) :
    (pyRange a b).get? n = some (a + n) := by
  unfold pyRange
  rw [List.get?_map, List.get?_range h]
  rfl

/-- C6: for every nonempty dictionary with integer keys, `Print` emits a
single string of length `max-key - min-key + 10`; its character at
offset `i - (min-key - 5)` is the stored one-letter label of residue `i`
when `i` is a key and `'.'` otherwise; the first five and the last four
positions are filler dots; and `Print` of the empty dictionary raises
(ValueError from `min()`). -/
theorem Print_spec (d : Dict) (hne : d ≠ []) :
    Print d = Except.ok (printString d) ∧
    ((printString d).length : Int) =
      listMax (dictKeys d) - listMin (dictKeys d) + 10 ∧
    (∀ i : Int, listMin (dictKeys d) - 5 ≤ i → i < listMax (dictKeys d) + 5 →
      (printString d).data.get? (i - (listMin (dictKeys d) - 5)).toNat =
        some (labelAt d i)) ∧
    (∀ n : Nat, n < 5 → (printString d).data.get? n = some '.') ∧
    (∀ n : Nat, (printString d).length - 4 ≤ n → n < (printString d).length →
      (printString d).data.get? n = some '.') ∧
    Print ([] : Dict) = Except.error PyErr.valueError := by
  obtain ⟨e, rest, rfl⟩ : ∃ e rest, d = e :: rest := by
    cases d with
    | nil => exact absurd rfl hne
    | cons e rest => exact ⟨e, rest, rfl⟩
  set dd : Dict := e :: rest with hdd
  have hmem : e.1 ∈ dictKeys dd := List.mem_cons_self e.1 (List.map Prod.fst rest)
  have hminmax : listMin (dictKeys dd) ≤ listMax (dictKeys dd) :=
    le_trans (listMin_le hmem) (le_listMax hmem)
  set vmin := listMin (dictKeys dd) with hvmin
  set vmax := listMax (dictKeys dd) with hvmax
  have hdata : (printString dd).data = (pyRange (vmin - 5) (vmax + 5)).map (labelAt dd) := rfl
  have hlen : (printString dd).length = ((vmax + 5) - (vmin - 5)).toNat := by
    show (printString dd).data.length = _
    rw [hdata, List.length_map, pyRange_length]
  have hget : ∀ n : Nat, n < ((vmax + 5) - (vmin - 5)).toNat →
      (printString dd).data.get? n = some (labelAt dd ((vmin - 5) + n)) := by
    intro n hn
    rw [hdata, List.get?_map, pyRange_get _ _ n hn]
    rfl
  refine ⟨rfl, ?_, ?_, ?_, ?_, rfl⟩
  · rw [hlen]; omega
  · intro i h1 h2
    have hn : (i - (vmin - 5)).toNat < ((vmax + 5) - (vmin - 5)).toNat := by omega
    rw [hget _ hn]
    congr 1
    congr 1
    omega
  · intro n hn
    have hn2 : n < ((vmax + 5) - (vmin - 5)).toNat := by omega
    rw [hget _ hn2, labelAt_dot_of_lt]
    rw [← hvmin]
    omega
  · intro n h1 h2
    rw [hlen] at h1 h2
    rw [hget _ h2, labelAt_dot_of_gt]
    rw [← hvmax]
    omega

/-- C6 witness: the theorem applied to a concrete two-key dictionary
(keys 10 and 13), with the positional facts instantiated at concrete
positions. -/
theorem Print_spec_witness :
    Print [((10 : Int), ('K', " 8.77")), (13, ('Q', "35.01"))] =
      Except.ok (printString [((10 : Int), ('K', " 8.77")), (13, ('Q', "35.01"))]) ∧
    ((printString [((10 : Int), ('K', " 8.77")), (13, ('Q', "35.01"))]).length : Int) =
      listMax (dictKeys [((10 : Int), ('K', " 8.77")), (13, ('Q', "35.01"))]) -
        listMin (dictKeys [((10 : Int), ('K', " 8.77")), (13, ('Q', "35.01"))]) + 10 ∧
    (printString [((10 : Int), ('K', " 8.77")), (13, ('Q', "35.01"))]).data.get?
        ((10 - (listMin (dictKeys [((10 : Int), ('K', " 8.77")), (13, ('Q', "35.01"))]) - 5)).toNat) =
      some (labelAt [((10 : Int), ('K', " 8.77")), (13, ('Q', "35.01"))] 10) ∧
    (printString [((10 : Int), ('K', " 8.77")), (13, ('Q', "35.01"))]).data.get? 0 = some '.' ∧
    (printString [((10 : Int), ('K', " 8.77")), (13, ('Q', "35.01"))]).data.get? 9 = some '.' ∧
    Print ([] : Dict) = Except.error PyErr.valueError := by
  have h := Print_spec [((10 : Int), ('K', " 8.77")), (13, ('Q', "35.01"))] (by decide)
  exact ⟨h.1, h.2.1, h.2.2.1 10 (by decide) (by decide), h.2.2.2.1 0 (by decide),
    h.2.2.2.2.1 9 (by decide) (by decide), h.2.2.2.2.2⟩

theorem keys_map_update {β : Type} (d : List (Int × β)) (k : Int) (v : β) :
    dictKeys (d.map (fun p => if p.1 = k then (k, v) else p)) = dictKeys d := by
  unfold dictKeys
  rw [List.map_map]
  apply List.map_congr_left
  intro p _
  by_cases hp : p.1 = k
  · show (if p.1 = k then (k, v) else p).1 = p.1
    rw [if_pos hp]
    exact hp.symm
  · show (if p.1 = k then (k, v) else p).1 = p.1
    rw [if_neg hp]

theorem mem_keys_dictSet {β : Type} (d : List (Int × β)) (k j : Int) (v : β)
    (h : j ∈ dictKeys d) : j ∈ dictKeys (dictSet d k v) := by
  unfold dictSet
  by_cases ha : d.any (fun p => p.1 = k)
  · rw [if_pos ha, keys_map_update]; exact h
  · rw [if_neg ha]
    unfold dictKeys at h ⊢
    rw [List.map_append]
    exact List.mem_append_left _ h

theorem lookup_map_update_ne {β : Type} (d : List (Int × β)) (k j : Int) (v : β)
    (hjk : j ≠ k) :
    dictLookup (d.map (fun p => if p.1 = k then (k, v) else p)) j = dictLookup d j := by
  induction d with
  | nil => rfl
  | cons e rest ih =>
    obtain ⟨k2, w⟩ := e
    by_cases he : k2 = k
    · have hif : (if ((k2, w) : Int × β).1 = k then (k, v) else (k2, w)) = (k, v) :=
        if_pos he
      rw [List.map_cons, hif]
      simp only [dictLookup]
      rw [if_neg (fun h : k = j => hjk h.symm),
        if_neg (fun h : k2 = j => hjk (he ▸ h).symm)]
      exact ih
    · have hif : (if ((k2, w) : Int × β).1 = k then (k, v) else (k2, w)) = (k2, w) :=
        if_neg he
      rw [List.map_cons, hif]
      simp only [dictLookup]
      by_cases hj : k2 = j
      · rw [if_pos hj, if_pos hj]
      · rw [if_neg hj, if_neg hj]
        exact ih

theorem lookup_append_single_ne {β : Type} (d : List (Int × β)) (k j : Int) (v : β)
    (hjk : j ≠ k) : dictLookup (d ++ [(k, v)]) j = dictLookup d j := by
  induction d with
  | nil =>
    simp only [List.nil_append, dictLookup]
    rw [if_neg (fun h : k = j => hjk h.symm)]
  | cons e rest ih =>
    obtain ⟨k2, w⟩ := e
    simp only [List.cons_append, dictLookup]
    by_cases hj : k2 = j
    · rw [if_pos hj, if_pos hj]
    · rw [if_neg hj, if_neg hj]
      exact ih

theorem lookup_dictSet_ne {β : Type} (d : List (Int × β)) (k j : Int) (v : β)
    (hjk : j ≠ k) : dictLookup (dictSet d k v) j = dictLookup d j := by
  unfold dictSet
  by_cases ha : d.any (fun p => p.1 = k)
  · rw [if_pos ha]
    exact lookup_map_update_ne d k j v hjk
  · rw [if_neg ha]
    exact lookup_append_single_ne d k j v hjk

theorem tryParse_keyOf (st : DIState) (ele : Triple) (r : Int) (d : Option Rat)
    (h : tryParse st ele = Except.ok (r, d)) : keyOf ele = some r := by
  unfold tryParse at h
  unfold keyOf
  cases hpi : pyInt ele.2.1 with
  | some ri =>
    cases hpf : pyFloat ele.2.2 with
    | some q =>
      rw [hpi, hpf] at h
      cases h
      rfl
    | none =>
      rw [hpi, hpf] at h
      cases hd : parseDigits (ele.2.1.data.filter Char.isDigit) with
      | none => rw [hd] at h; cases h
      | some n => rw [hd] at h; cases h; simp [hd]
  | none =>
    rw [hpi] at h
    cases hd : parseDigits (ele.2.1.data.filter Char.isDigit) with
    | none => rw [hd] at h; cases h
    | some n =>
      rw [hd] at h
      cases h
      cases hpf : pyFloat ele.2.2 <;> simp [hd]

theorem diStep_ok_char (fields : List String) (nA : Nat) (st : DIState) (ele : Triple)
    (st2 : DIState) (h : diStep fields nA st ele = Except.ok st2) :
    ∃ r w, keyOf ele = some r ∧
      ((st2.spike = dictSet st.spike r w ∧ st2.antibody = st.antibody) ∨
       (st2.spike = st.spike ∧ st2.antibody = dictSet st.antibody r w)) := by
  unfold diStep at h
  split at h
  · exact Except.noConfusion h
  · rename_i res dist htp
    have hk := tryParse_keyOf st ele res dist htp
    split at h
    · split at h
      · exact Except.noConfusion h
      · split at h
        · exact Except.noConfusion h
        · split at h
          · exact Except.noConfusion h
          · cases h
            exact ⟨res, _, hk, Or.inr ⟨rfl, rfl⟩⟩
    · split at h
      · exact Except.noConfusion h
      · split at h
        · exact Except.noConfusion h
        · split at h
          · exact Except.noConfusion h
          · cases h
            exact ⟨res, _, hk, Or.inl ⟨rfl, rfl⟩⟩

theorem diRun_frame (fields : List String) (nA : Nat) :
    ∀ (bs : List Triple) (st : DIState) (k : Int),
    (k ∈ dictKeys st.spike → k ∈ dictKeys (diRun fields nA bs st).1.spike) ∧
    (k ∈ dictKeys st.antibody → k ∈ dictKeys (diRun fields nA bs st).1.antibody) ∧
    ((∀ t ∈ bs, keyOf t ≠ some k) →
      dictLookup (diRun fields nA bs st).1.spike k = dictLookup st.spike k ∧
      dictLookup (diRun fields nA bs st).1.antibody k = dictLookup st.antibody k) := by
  intro bs
  induction bs with
  | nil => intro st k; exact ⟨id, id, fun _ => ⟨rfl, rfl⟩⟩
  | cons ele rest ih =>
    intro st k
    cases hstep : diStep fields nA st ele with
    | error e =>
      have hred : diRun fields nA (ele :: rest) st = (st, some e) := by
        simp only [diRun, hstep]
      rw [hred]
      exact ⟨id, id, fun _ => ⟨rfl, rfl⟩⟩
    | ok st2 =>
      have hred : diRun fields nA (ele :: rest) st = diRun fields nA rest st2 := by
        simp only [diRun, hstep]
      rw [hred]
      obtain ⟨r, w, hkey, hcases⟩ := diStep_ok_char fields nA st ele st2 hstep
      have ihs := ih st2 k
      refine ⟨?_, ?_, ?_⟩
      · intro hmem
        apply ihs.1
        rcases hcases with ⟨hs, _⟩ | ⟨hs, _⟩
        · rw [hs]; exact mem_keys_dictSet _ r k w hmem
        · rw [hs]; exact hmem
      · intro hmem
        apply ihs.2.1
        rcases hcases with ⟨_, ha⟩ | ⟨_, ha⟩
        · rw [ha]; exact hmem
        · rw [ha]; exact mem_keys_dictSet _ r k w hmem
      · intro hno
        have hrk : r ≠ k := by
          intro hrk
          exact hno ele (List.mem_cons_self ele rest) (hrk ▸ hkey)
        have hrest : ∀ t ∈ rest, keyOf t ≠ some k :=
          fun t ht => hno t (List.mem_cons_of_mem ele ht)
        have h2 := ihs.2.2 hrest
        rcases hcases with ⟨hs, ha⟩ | ⟨hs, ha⟩
        · rw [h2.1, h2.2, hs, ha, lookup_dictSet_ne _ _ _ _ (fun h => hrk h.symm)]
          exact ⟨rfl, rfl⟩
        · rw [h2.1, h2.2, hs, ha, lookup_dictSet_ne _ _ _ _ (fun h => hrk h.symm)]
          exact ⟨rfl, rfl⟩

/-- C5: `Define_Interfaces` never removes or clears dictionary entries:
every key present in `interface_spike` or `interface_antibody` before
the call is still present after it, and the stored value at a key that
no binding-list triple re-assigns is unchanged — so successive calls
accumulate the spike footprint across chain pairs.  The four parts are
independent implications, so each applies on its own — in particular
spike-key preservation holds for the notebook's accumulating call
`Define_Interfaces(binding3_res, binding3_fasta, interface_spike, {})`,
whose antibody dictionary is empty. -/
theorem Define_Interfaces_preserves (binding : List Triple) (fasta : String)
    (s0 a0 : Dict) (k j : Int) :
    (k ∈ dictKeys s0 → k ∈ dictKeys (Define_Interfaces binding fasta s0 a0).spike) ∧
    (j ∈ dictKeys a0 → j ∈ dictKeys (Define_Interfaces binding fasta s0 a0).antibody) ∧
    ((∀ t ∈ binding, keyOf t ≠ some k) →
      dictLookup (Define_Interfaces binding fasta s0 a0).spike k = dictLookup s0 k) ∧
    ((∀ t ∈ binding, keyOf t ≠ some j) →
      dictLookup (Define_Interfaces binding fasta s0 a0).antibody j = dictLookup a0 j) := by
  have hk := diRun_frame (pySplit fasta)
    (Count_Element (binding.map encodeTriple) (PyVal.str "chA")) binding
    ⟨0, none, s0, a0⟩ k
  have hj := diRun_frame (pySplit fasta)
    (Count_Element (binding.map encodeTriple) (PyVal.str "chA")) binding
    ⟨0, none, s0, a0⟩ j
  exact ⟨hk.1, hj.2.1, fun hno => (hk.2.2 hno).1, fun hno => (hj.2.2 hno).2⟩

/-- C5 witness: the theorem applied to a concrete call that re-assigns
neither pre-existing key, with all four implications discharged at
concrete keys of the two input dictionaries. -/
theorem Define_Interfaces_preserves_witness :
    (3 : Int) ∈ dictKeys (Define_Interfaces [("chB", "7", "1.0")] "f0 f1 f2 f3w"
      [((3 : Int), ('A', " 1.00"))] [((4 : Int), ('B', " 2.00"))]).spike ∧
    (4 : Int) ∈ dictKeys (Define_Interfaces [("chB", "7", "1.0")] "f0 f1 f2 f3w"
      [((3 : Int), ('A', " 1.00"))] [((4 : Int), ('B', " 2.00"))]).antibody ∧
    dictLookup (Define_Interfaces [("chB", "7", "1.0")] "f0 f1 f2 f3w"
      [((3 : Int), ('A', " 1.00"))] [((4 : Int), ('B', " 2.00"))]).spike 3 =
      dictLookup [((3 : Int), ('A', " 1.00"))] 3 ∧
    dictLookup (Define_Interfaces [("chB", "7", "1.0")] "f0 f1 f2 f3w"
      [((3 : Int), ('A', " 1.00"))] [((4 : Int), ('B', " 2.00"))]).antibody 4 =
      dictLookup [((4 : Int), ('B', " 2.00"))] 4 := by
  have h := Define_Interfaces_preserves [("chB", "7", "1.0")] "f0 f1 f2 f3w"
    [((3 : Int), ('A', " 1.00"))] [((4 : Int), ('B', " 2.00"))] 3 4
  exact ⟨h.1 (by decide), h.2.1 (by decide), h.2.2.1 (by decide), h.2.2.2 (by decide)⟩

theorem pyInt_ne_chA {s : String} (h : (pyInt s).isSome) : s ≠ "chA" := by
  intro he
  rw [he] at h
  exact absurd h (by decide)

theorem diRun_cons_ok {fields : List String} {nA : Nat} {st st2 : DIState}
    {ele : Triple} (rest : List Triple)
    (hstep : diStep fields nA st ele = Except.ok st2) :
    diRun fields nA (ele :: rest) st = diRun fields nA rest st2 := by
  simp only [diRun, hstep]

theorem nAntibody_eq (binding : List Triple)
    (hp : ∀ t ∈ binding, (pyInt t.2.1).isSome ∧ (pyFloat t.2.2).isSome) :
    Count_Element (binding.map encodeTriple) (PyVal.str "chA") =
      (binding.filter (fun t => t.1 == "chA")).length := by
  induction binding with
  | nil => rfl
  | cons t rest ih =>
    have hpt := hp t (List.mem_cons_self t rest)
    have hrest : ∀ u ∈ rest, (pyInt u.2.1).isSome ∧ (pyFloat u.2.2).isSome :=
      fun u hu => hp u (List.mem_cons_of_mem t hu)
    have hne1 : t.2.1 ≠ "chA" := pyInt_ne_chA hpt.1
    have hne2 : t.2.2 ≠ "chA" := by
      intro he
      have hf := hpt.2
      rw [he] at hf
      exact absurd hf (by decide)
    have hhead : Count_Element [encodeTriple t] (PyVal.str "chA") =
        if t.1 = "chA" then 1 else 0 := by
      show Count_Element [PyVal.str t.1, PyVal.str t.2.1, PyVal.str t.2.2]
          (PyVal.str "chA") + 0 = _
      simp only [Count_Element, pyEq, decide_eq_true_eq]
      rw [if_neg hne1, if_neg hne2]
      by_cases hch : t.1 = "chA"
      · rw [if_pos hch]
      · rw [if_neg hch]
    have hsplit : Count_Element (List.map encodeTriple (t :: rest)) (PyVal.str "chA") =
        Count_Element [encodeTriple t] (PyVal.str "chA") +
          Count_Element (List.map encodeTriple rest) (PyVal.str "chA") := by
      simp only [List.map_cons, Count_Element, encodeTriple]
      ring
    rw [hsplit, hhead, ih hrest, List.filter_cons]
    by_cases hch : t.1 = "chA"
    · simp [hch, Nat.add_comm]
    · simp [hch]

theorem diStep_chA (fields : List String) (nA : Nat) (st : DIState) (t : Triple)
    (f1 : String) (r : Int) (q : Rat) (c : Char)
    (hch : t.1 = "chA") (hpi : pyInt t.2.1 = some r) (hpf : pyFloat t.2.2 = some q)
    (hf1 : fields.get? 1 = some f1) (hget : pyStrGet f1 (st.index : Int) = some c) :
    diStep fields nA st t =
      Except.ok ⟨st.index + 1, some q, st.spike, dictSet st.antibody r (c, format52 q)⟩ := by
  unfold diStep tryParse
  rw [hpi, hpf]
  simp only [hch, hf1, hget, if_true, reduceIte]

theorem diStep_notA (fields : List String) (nA : Nat) (st : DIState) (t : Triple)
    (f3 : String) (r : Int) (q : Rat) (c : Char)
    (hch : t.1 ≠ "chA") (hpi : pyInt t.2.1 = some r) (hpf : pyFloat t.2.2 = some q)
    (hf3 : fields.get? 3 = some f3)
    (hget : pyStrGet f3 ((st.index : Int) - (nA : Int)) = some c) :
    diStep fields nA st t =
      Except.ok ⟨st.index + 1, some q, dictSet st.spike r (c, format52 q), st.antibody⟩ := by
  unfold diStep tryParse
  rw [hpi, hpf]
  simp only [hch, hf3, hget, if_false, reduceIte]

theorem pyStrGet_nat (f : String) (n : Nat) (hn : n < f.length) :
    pyStrGet f (n : Int) = some (f.data.get ⟨n, hn⟩) := by
  unfold pyStrGet
  rw [if_pos (by omega : (0 : Int) ≤ (n : Int))]
  rw [show ((n : Int)).toNat = n from by omega]
  exact List.get?_eq_get hn

theorem diRun_chA_phase (fields : List String) (nA : Nat) (f1 : String)
    (hf1 : fields.get? 1 = some f1) :
    ∀ (A B : List Triple) (st : DIState),
    (∀ t ∈ A, t.1 = "chA") →
    (∀ t ∈ A, (pyInt t.2.1).isSome ∧ (pyFloat t.2.2).isSome) →
    st.index + A.length ≤ f1.length →
    ∃ d2 : Option Rat,
      diRun fields nA (A ++ B) st =
        diRun fields nA B
          ⟨st.index + A.length, d2, st.spike,
            specApply st.antibody (specEntries f1 st.index A)⟩ := by
  intro A
  induction A with
  | nil =>
    intro B st _ _ _
    exact ⟨st.dist, by simp [specApply, specEntries]⟩
  | cons t A2 ih =>
    intro B st hA hp hlen
    obtain ⟨r, hpi⟩ := Option.isSome_iff_exists.1 (hp t (List.mem_cons_self t A2)).1
    obtain ⟨q, hpf⟩ := Option.isSome_iff_exists.1 (hp t (List.mem_cons_self t A2)).2
    have hch : t.1 = "chA" := hA t (List.mem_cons_self t A2)
    have hidx : st.index < f1.length := by
      have := hlen
      simp only [List.length_cons] at this
      omega
    have hget := pyStrGet_nat f1 st.index hidx
    have hstep := diStep_chA fields nA st t f1 r q _ hch hpi hpf hf1 hget
    rw [List.cons_append, diRun_cons_ok (A2 ++ B) hstep]
    have hA2 : ∀ u ∈ A2, u.1 = "chA" := fun u hu => hA u (List.mem_cons_of_mem t hu)
    have hp2 : ∀ u ∈ A2, (pyInt u.2.1).isSome ∧ (pyFloat u.2.2).isSome :=
      fun u hu => hp u (List.mem_cons_of_mem t hu)
    set c := f1.data.get ⟨st.index, hidx⟩ with hc
    obtain ⟨d2, hd2⟩ := ih B
      ⟨st.index + 1, some q, st.spike, dictSet st.antibody r (c, format52 q)⟩
      hA2 hp2
      (by show st.index + 1 + A2.length ≤ f1.length
          simp only [List.length_cons] at hlen
          omega)
    refine ⟨d2, ?_⟩
    rw [hd2]
    have hse : specEntries f1 st.index (t :: A2) =
        (r, (c, format52 q)) :: specEntries f1 (st.index + 1) A2 := by
      simp [specEntries, hpi, hpf, hget]
    rw [hse]
    have hsa : specApply st.antibody
        ((r, (c, format52 q)) :: specEntries f1 (st.index + 1) A2) =
        specApply (dictSet st.antibody r (c, format52 q))
          (specEntries f1 (st.index + 1) A2) := rfl
    rw [hsa]
    have hidx2 : st.index + 1 + A2.length = st.index + (t :: A2).length := by
      simp only [List.length_cons]
      omega
    dsimp only
    rw [hidx2]


theorem diRun_spike_phase (fields : List String) (nA : Nat) (f3 : String)
    (hf3 : fields.get? 3 = some f3) :
    ∀ (B : List Triple) (st : DIState) (j0 : Nat),
    st.index = nA + j0 →
    (∀ t ∈ B, t.1 ≠ "chA") →
    (∀ t ∈ B, (pyInt t.2.1).isSome ∧ (pyFloat t.2.2).isSome) →
    j0 + B.length ≤ f3.length →
    ∃ d2 : Option Rat,
      diRun fields nA B st =
        (⟨st.index + B.length, d2, specApply st.spike (specEntries f3 j0 B),
          st.antibody⟩, none) := by
  intro B
  induction B with
  | nil =>
    intro st j0 _ _ _ _
    exact ⟨st.dist, rfl⟩
  | cons t B2 ih =>
    intro st j0 hidxeq hB hp hlen
    obtain ⟨r, hpi⟩ := Option.isSome_iff_exists.1 (hp t (List.mem_cons_self t B2)).1
    obtain ⟨q, hpf⟩ := Option.isSome_iff_exists.1 (hp t (List.mem_cons_self t B2)).2
    have hch : t.1 ≠ "chA" := hB t (List.mem_cons_self t B2)
    have hj0 : j0 < f3.length := by
      simp only [List.length_cons] at hlen
      omega
    have hgetj := pyStrGet_nat f3 j0 hj0
    set c := f3.data.get ⟨j0, hj0⟩ with hc
    have hcast : (st.index : Int) - (nA : Int) = (j0 : Int) := by
      rw [hidxeq]
      push_cast
      ring
    have hget : pyStrGet f3 ((st.index : Int) - (nA : Int)) = some c := by
      rw [hcast]
      exact hgetj
    have hstep := diStep_notA fields nA st t f3 r q _ hch hpi hpf hf3 hget
    rw [diRun_cons_ok B2 hstep]
    have hB2 : ∀ u ∈ B2, u.1 ≠ "chA" := fun u hu => hB u (List.mem_cons_of_mem t hu)
    have hp2 : ∀ u ∈ B2, (pyInt u.2.1).isSome ∧ (pyFloat u.2.2).isSome :=
      fun u hu => hp u (List.mem_cons_of_mem t hu)
    obtain ⟨d2, hd2⟩ := ih
      ⟨st.index + 1, some q, dictSet st.spike r (c, format52 q), st.antibody⟩
      (j0 + 1)
      (by show st.index + 1 = nA + (j0 + 1); omega)
      hB2 hp2
      (by simp only [List.length_cons] at hlen; omega)
    refine ⟨d2, ?_⟩
    rw [hd2]
    have hse : specEntries f3 j0 (t :: B2) =
        (r, (c, format52 q)) :: specEntries f3 (j0 + 1) B2 := by
      simp [specEntries, hpi, hpf, hgetj]
    rw [hse]
    have hsa : specApply st.spike
        ((r, (c, format52 q)) :: specEntries f3 (j0 + 1) B2) =
        specApply (dictSet st.spike r (c, format52 q))
          (specEntries f3 (j0 + 1) B2) := rfl
    rw [hsa]
    have hidx2 : st.index + 1 + B2.length = st.index + (t :: B2).length := by
      simp only [List.length_cons]
      omega
    dsimp only
    rw [hidx2]

theorem Define_Interfaces_run (A B : List Triple) (fasta : String) (s0 a0 : Dict)
    (f1 f3 : String)
    (hA : ∀ t ∈ A, t.1 = "chA") (hB : ∀ t ∈ B, t.1 ≠ "chA")
    (hp : ∀ t ∈ A ++ B, (pyInt t.2.1).isSome ∧ (pyFloat t.2.2).isSome)
    (hf1 : (pySplit fasta).get? 1 = some f1) (hf3 : (pySplit fasta).get? 3 = some f3)
    (hlen1 : A.length ≤ f1.length) (hlen3 : B.length ≤ f3.length) :
    (Define_Interfaces (A ++ B) fasta s0 a0).error = none ∧
    (Define_Interfaces (A ++ B) fasta s0 a0).antibody =
      specApply a0 (specEntries f1 0 A) ∧
    (Define_Interfaces (A ++ B) fasta s0 a0).spike =
      specApply s0 (specEntries f3 0 B) ∧
    (Define_Interfaces (A ++ B) fasta s0 a0).retval =
      some (specApply s0 (specEntries f3 0 B), specApply a0 (specEntries f1 0 A)) := by
  have hpA : ∀ t ∈ A, (pyInt t.2.1).isSome ∧ (pyFloat t.2.2).isSome :=
    fun t ht => hp t (List.mem_append_left B ht)
  have hpB : ∀ t ∈ B, (pyInt t.2.1).isSome ∧ (pyFloat t.2.2).isSome :=
    fun t ht => hp t (List.mem_append_right A ht)
  have hnAval : Count_Element ((A ++ B).map encodeTriple) (PyVal.str "chA") = A.length := by
    rw [nAntibody_eq (A ++ B) hp, List.filter_append]
    have h1 : A.filter (fun t => t.1 == "chA") = A :=
      List.filter_eq_self.2 (fun t ht => by simpa using hA t ht)
    have h2 : B.filter (fun t => t.1 == "chA") = [] :=
      List.filter_eq_nil.2 (fun t ht => by simpa using hB t ht)
    rw [h1, h2]
    simp
  obtain ⟨d1, hph1⟩ := diRun_chA_phase (pySplit fasta) A.length f1 hf1 A B
    ⟨0, none, s0, a0⟩ hA hpA (by dsimp only; omega)
  dsimp only at hph1
  obtain ⟨d2, hph2⟩ := diRun_spike_phase (pySplit fasta) A.length f3 hf3 B
    ⟨0 + A.length, d1, s0, specApply a0 (specEntries f1 0 A)⟩ 0
    (by dsimp only; omega) hB hpB (by omega)
  dsimp only at hph2
  have hrun : diRun (pySplit fasta) A.length (A ++ B) ⟨0, none, s0, a0⟩ =
      (⟨0 + A.length + B.length, d2, specApply s0 (specEntries f3 0 B),
        specApply a0 (specEntries f1 0 A)⟩, none) := by
    rw [hph1, hph2]
  refine ⟨?_, ?_, ?_, ?_⟩
  · show (diRun (pySplit fasta)
        (Count_Element ((A ++ B).map encodeTriple) (PyVal.str "chA"))
        (A ++ B) ⟨0, none, s0, a0⟩).2 = none
    rw [hnAval, hrun]
  · show (diRun (pySplit fasta)
        (Count_Element ((A ++ B).map encodeTriple) (PyVal.str "chA"))
        (A ++ B) ⟨0, none, s0, a0⟩).1.antibody = specApply a0 (specEntries f1 0 A)
    rw [hnAval, hrun]
  · show (diRun (pySplit fasta)
        (Count_Element ((A ++ B).map encodeTriple) (PyVal.str "chA"))
        (A ++ B) ⟨0, none, s0, a0⟩).1.spike = specApply s0 (specEntries f3 0 B)
    rw [hnAval, hrun]
  · show (match (diRun (pySplit fasta)
        (Count_Element ((A ++ B).map encodeTriple) (PyVal.str "chA"))
        (A ++ B) ⟨0, none, s0, a0⟩).2 with
      | none => some ((diRun (pySplit fasta)
          (Count_Element ((A ++ B).map encodeTriple) (PyVal.str "chA"))
          (A ++ B) ⟨0, none, s0, a0⟩).1.spike,
          (diRun (pySplit fasta)
          (Count_Element ((A ++ B).map encodeTriple) (PyVal.str "chA"))
          (A ++ B) ⟨0, none, s0, a0⟩).1.antibody)
      | some _ => none) =
      some (specApply s0 (specEntries f3 0 B), specApply a0 (specEntries f1 0 A))
    rw [hnAval, hrun]


/-- C1: for a binding list in which every `'chA'` triple precedes every
non-`'chA'` triple (written as `A ++ B`), all of whose residue-ids and
dASA fields convert, and a fasta string whose whitespace-split form has
fields 1 and 3 (`f1`, `f3`) long enough, `Define_Interfaces` raises
nothing and returns the two dictionaries in which the `k`-th `'chA'`
triple has added `int(residue-id) -> [f1[k], dASA formatted as "%5.2f"]`
to the antibody dictionary and the `k`-th non-`'chA'` triple has added
`int(residue-id) -> [f3[k], dASA formatted as "%5.2f"]` to the spike
dictionary — and no other entries (the results are exactly these
assignments applied to the dictionaries passed in). -/
theorem Define_Interfaces_correct (A B : List Triple) (fasta : String) (s0 a0 : Dict)
    (f1 f3 : String)
    (hA : ∀ t ∈ A, t.1 = "chA") (hB : ∀ t ∈ B, t.1 ≠ "chA")
    (hp : ∀ t ∈ A ++ B, (pyInt t.2.1).isSome ∧ (pyFloat t.2.2).isSome)
    (hf1 : (pySplit fasta).get? 1 = some f1) (hf3 : (pySplit fasta).get? 3 = some f3)
    (hlen1 : A.length ≤ f1.length) (hlen3 : B.length ≤ f3.length) :
    (Define_Interfaces (A ++ B) fasta s0 a0).error = none ∧
    (Define_Interfaces (A ++ B) fasta s0 a0).antibody =
      specApply a0 (specEntries f1 0 A) ∧
    (Define_Interfaces (A ++ B) fasta s0 a0).spike =
      specApply s0 (specEntries f3 0 B) ∧
    (Define_Interfaces (A ++ B) fasta s0 a0).retval =
      some (specApply s0 (specEntries f3 0 B), specApply a0 (specEntries f1 0 A)) :=
  Define_Interfaces_run A B fasta s0 a0 f1 f3 hA hB hp hf1 hf3 hlen1 hlen3

/-- C1 witness: the theorem applied to a concrete binding list with one
`'chA'` and one `'chB'` triple and the fasta string `"h1 SY h3 VW"`. -/
theorem Define_Interfaces_correct_witness :
    (Define_Interfaces ([("chA", "19", "8.77")] ++ [("chB", "495", "35.01")])
      "h1 SY h3 VW" [] []).error = none ∧
    (Define_Interfaces ([("chA", "19", "8.77")] ++ [("chB", "495", "35.01")])
      "h1 SY h3 VW" [] []).antibody =
      specApply [] (specEntries "SY" 0 [("chA", "19", "8.77")]) ∧
    (Define_Interfaces ([("chA", "19", "8.77")] ++ [("chB", "495", "35.01")])
      "h1 SY h3 VW" [] []).spike =
      specApply [] (specEntries "VW" 0 [("chB", "495", "35.01")]) ∧
    (Define_Interfaces ([("chA", "19", "8.77")] ++ [("chB", "495", "35.01")])
      "h1 SY h3 VW" [] []).retval =
      some (specApply [] (specEntries "VW" 0 [("chB", "495", "35.01")]),
            specApply [] (specEntries "SY" 0 [("chA", "19", "8.77")])) :=
  Define_Interfaces_correct [("chA", "19", "8.77")] [("chB", "495", "35.01")]
    "h1 SY h3 VW" [] [] "SY" "VW"
    (by decide) (by decide) (by decide) (by decide) (by decide) (by decide) (by decide)

/-- C3 amended: `Define_Interfaces` completes without raising provided
every triple's residue-id converts with `int` and its dASA with `float`
and the fasta's split fields 1 and 3 are long enough (with `'chA'`
triples first); without those provisos it can raise — an unconvertible
first triple leaves `dist` unbound (UnboundLocalError), a residue-id
with no digit at all raises ValueError in the fallback itself, and a
short fasta raises IndexError. -/
theorem Define_Interfaces_no_error (A B : List Triple) (fasta : String) (s0 a0 : Dict)
    (f1 f3 : String)
    (hA : ∀ t ∈ A, t.1 = "chA") (hB : ∀ t ∈ B, t.1 ≠ "chA")
    (hp : ∀ t ∈ A ++ B, (pyInt t.2.1).isSome ∧ (pyFloat t.2.2).isSome)
    (hf1 : (pySplit fasta).get? 1 = some f1) (hf3 : (pySplit fasta).get? 3 = some f3)
    (hlen1 : A.length ≤ f1.length) (hlen3 : B.length ≤ f3.length) :
    (Define_Interfaces (A ++ B) fasta s0 a0).error = none :=
  (Define_Interfaces_run A B fasta s0 a0 f1 f3 hA hB hp hf1 hf3 hlen1 hlen3).1

/-- C3 witness: the no-error theorem applied to a concrete well-formed
binding list and fasta string. -/
theorem Define_Interfaces_no_error_witness :
    (Define_Interfaces ([("chA", "19", "8.77")] ++ [("chB", "495", "35.01")])
      "h1 SY h3 VW" [] []).error = none :=
  Define_Interfaces_no_error [("chA", "19", "8.77")] [("chB", "495", "35.01")]
    "h1 SY h3 VW" [] [] "SY" "VW"
    (by decide) (by decide) (by decide) (by decide) (by decide) (by decide) (by decide)

end Interfaces
